import Mathlib

/-!
Shallow embedding of the Feetech SCS protocol driver and the step-bounded
convergence control loop of the `nominal-apps` repository.

Sources embedded:
- `so101-unified-dropdown/feetech_interface.py` (checksum, register read
  decode, position write with clamping, response drain);
- `so101-live-motorcam/so101_trajectory_test.py` (inline checksum copy,
  per-tick convergence step, the `all_reached` waypoint loop);
- `so101-live-motorcam/so101_motor_control.py` (position write wrapped in
  a try/except that reports `False` only when the channel raises);
- `so101-3d-viz/so101_visualize.py` (inline checksum copy, inline register
  read copy, `encoder_to_radians`).

Modelling conventions: Python integers are `Int`.  For a nonnegative
modulus Lean's `Int` `/` and `%` are Euclidean, which coincides with
Python's floor division and nonnegative remainder, so Python `x & 0xFF`
is `x % 256` (two's complement) and Python `x >> 8` is `x / 256`.
Python `~x` is `-x - 1`.  Byte strings returned by `serial.read` are
`List Nat` with every element below 256.  Python code that can raise is
modelled in `Except String`, with `IndexError` the only exception the
decoder itself could produce; serial-channel faults are a `writeFails`
flag on the channel state.
-/

/-- Python `~x` on an arbitrary integer. -/
def pyNot (x : Int) : Int := -x - 1

/-- Python `x & 0xFF` on an arbitrary (two's complement) integer. -/
def pyAnd255 (x : Int) : Int := x % 256

/-- Python `x >> 8` (arithmetic shift, floor division by 256). -/
def pyShr8 (x : Int) : Int := x / 256

namespace FeetechInterface

/-- `ENCODER_MAX = 4095` from `feetech_interface.py`. -/
def ENCODER_MAX : Int := 4095

/-- `calculate_checksum` from `feetech_interface.py`:
`total = sum(packet[2:]); return ~total & 0xFF`. -/
def calculate_checksum (packet : List Int) : Int :=
  pyAnd255 (pyNot ((packet.drop 2).sum))

end FeetechInterface

namespace TrajectoryTest

/-- `calculate_checksum` from `so101_trajectory_test.py` (inline duplicate):
`total = sum(packet[2:]); return ~total & 0xFF`. -/
def calculate_checksum (packet : List Int) : Int :=
  pyAnd255 (pyNot ((packet.drop 2).sum))

end TrajectoryTest

namespace Visualize

/-- `calculate_checksum` from `so101_visualize.py` (inline duplicate):
`total = sum(packet[2:]); return ~total & 0xFF`. -/
def calculate_checksum (packet : List Int) : Int :=
  pyAnd255 (pyNot ((packet.drop 2).sum))

end Visualize

/-- Python sequence indexing `l[i]` on a byte string: raises `IndexError`
when the index is out of range. -/
def pyIndex (l : List Nat) (i : Nat) : Except String Nat :=
  match l.get? i with
  | some v => Except.ok v
  | none => Except.error "IndexError"

/-- Response-decoding tail of `read_motor_register` from
`feetech_interface.py` (identical in `so101_visualize.py`), applied to the
bytes returned by `ser.read(5 + num_bytes + 1)`:

```
if len(response) >= (5 + num_bytes) and response[0] == 0xFF and response[1] == 0xFF:
    if num_bytes == 2:
        return response[5] | (response[6] << 8)
    else:
        return response[5]
return None
```

Python `and` short-circuits, so the index accesses happen only after the
length guard has passed.  `ok none` is Python `None` (a failed read);
`ok (some v)` is a decoded value; `error` is a raised exception. -/
def read_decode (response : List Nat) (num_bytes : Nat) :
    Except String (Option Nat) :=
  if 5 + num_bytes ≤ response.length then do
    let b0 ← pyIndex response 0
    let b1 ← pyIndex response 1
    if b0 = 255 ∧ b1 = 255 then
      if num_bytes = 2 then do
        let lo ← pyIndex response 5
        let hi ← pyIndex response 6
        pure (some (lo ||| (hi <<< 8)))
      else do
        let v ← pyIndex response 5
        pure (some v)
    else
      pure none
  else
    pure none

/-- State of the serial channel as the driver sees it: whether the next
`ser.write` raises a channel-level fault, and the bytes the device has
queued for reading (`ser.in_waiting` is their count). -/
structure Serial where
  writeFails : Bool
  inBuffer : List Nat
deriving Repr, DecidableEq

/-- `ser.write(packet)`: raises on a channel fault, otherwise leaves the
read buffer untouched. -/
def serWrite (s : Serial) (_packet : List Int) : Except String Serial :=
  if s.writeFails then Except.error "SerialException" else Except.ok s

/-- `ser.in_waiting`. -/
def serInWaiting (s : Serial) : Nat := s.inBuffer.length

/-- `ser.read(ser.in_waiting)`: drains the whole buffer. -/
def serReadAll (s : Serial) : List Nat × Serial :=
  (s.inBuffer, { s with inBuffer := [] })

/-- Packet built by `set_motor_position` in `feetech_interface.py`
(identically in `so101_trajectory_test.py` and `so101_motor_control.py`):

```
position = max(0, min(ENCODER_MAX, int(position)))
pos_low = position & 0xFF
pos_high = (position >> 8) & 0xFF
packet_without_checksum = [0xFF, 0xFF, motor_id, 5, SCS_WRITE,
                           SCS_GOAL_POSITION_L, pos_low, pos_high]
packet = bytes(packet_without_checksum + [calculate_checksum(...)])
```

with `SCS_WRITE = 0x03` and `SCS_GOAL_POSITION_L = 42`. -/
def set_motor_position_packet (motor_id position : Int) : List Int :=
  let position := max 0 (min FeetechInterface.ENCODER_MAX position)
  let pos_low := pyAnd255 position
  let pos_high := pyAnd255 (pyShr8 position)
  let packet_without_checksum :=
    [255, 255, motor_id, 5, 3, 42, pos_low, pos_high]
  packet_without_checksum ++
    [FeetechInterface.calculate_checksum packet_without_checksum]

/-- `set_motor_position` from `feetech_interface.py`: write the packet,
sleep, drain any queued acknowledgment bytes, `return True`.  There is no
try/except, so a channel fault propagates. -/
def set_motor_position_fi (s : Serial) (motor_id position : Int) :
    Except String (Bool × Serial) := do
  let packet := set_motor_position_packet motor_id position
  let s ← serWrite s packet
  let s := if serInWaiting s > 0 then (serReadAll s).2 else s
  pure (true, s)

/-- `set_motor_position` from `so101_motor_control.py`: the same body
inside `try: ... return True / except: return False`. -/
def set_motor_position_mc (s : Serial) (motor_id position : Int) :
    Bool × Serial :=
  match (do
      let packet := set_motor_position_packet motor_id position
      let s ← serWrite s packet
      let s := if serInWaiting s > 0 then (serReadAll s).2 else s
      pure (true, s) : Except String (Bool × Serial)) with
  | Except.ok r => r
  | Except.error _ => (false, s)

/-- `STEP_SIZE = 20` from `so101_trajectory_test.py`. -/
def STEP_SIZE : Int := 20

/-- Per-motor body of the convergence loop in `so101_trajectory_test.py`
for a motor whose position read succeeded: returns the commanded position
and whether the motor counts as converged this tick (the `else` branch is
the only place the loop clears `all_reached`).

```
error = target - current
if abs(error) <= STEP_SIZE:
    set_motor_position(ser, motor_id, target)
else:
    if error > 0: next_pos = current + STEP_SIZE
    else: next_pos = current - STEP_SIZE
    set_motor_position(ser, motor_id, next_pos)
    all_reached = False
```
-/
def motor_tick_update (current target : Int) : Int × Bool :=
  let error := target - current
  if |error| ≤ STEP_SIZE then
    (target, true)
  else
    (if error > 0 then current + STEP_SIZE else current - STEP_SIZE, false)

/-- One tick of the waypoint loop of `so101_trajectory_test.py`, lines
195-232, restricted to the `all_reached` flag.  `motors` pairs each
motor's position read for this tick (`none` when the read failed) with
its target.  `all_reached` starts `True`; an absent read executes
`continue`, leaving the flag untouched; a present read leaves it
untouched when `abs(error) <= STEP_SIZE` and clears it otherwise. -/
def tick_all_reached (motors : List (Option Int × Int)) : Bool :=
  motors.foldl
    (fun all_reached m =>
      match m.1 with
      | none => all_reached
      | some current =>
          if (motor_tick_update current m.2).2 then all_reached else false)
    true

/-- Position of the single-motor convergence scenario of spec property 6
(`home = 2048`, `target = 2148`, `step = STEP_SIZE`) at the start of each
tick, under the scenario's assumption that each tick's read returns the
previously commanded position; tick `n` commands `traj_position (n+1)`. -/
def traj_position : Nat → Int
  | 0 => 2048
  | n + 1 => (motor_tick_update (traj_position n) 2148).1

namespace Visualize

/-- `ENCODER_MAX = 4095` from `so101_visualize.py`. -/
def ENCODER_MAX : Int := 4095

/-- `JOINT_ENCODER_OFFSETS` from `so101_visualize.py`: every motor id 1-6
maps to `0`. -/
def JOINT_ENCODER_OFFSETS (_motor_id : Nat) : Int := 0

/-- `JOINT_MULTIPLIERS` from `so101_visualize.py`: every motor id 1-6
maps to `1.0`. -/
def JOINT_MULTIPLIERS (_motor_id : Nat) : ℝ := 1

/-- Wraparound step of `encoder_to_radians`.  The Python comparison is an
integer against the float `ENCODER_MAX / 2 = 2047.5`, which is exact; it
is modelled as the same comparison over `ℚ`:

```
if offset > ENCODER_MAX / 2: offset -= ENCODER_MAX
elif offset < -ENCODER_MAX / 2: offset += ENCODER_MAX
```
-/
def wrap_offset (off : Int) : Int :=
  if (off : ℚ) > (ENCODER_MAX : ℚ) / 2 then off - ENCODER_MAX
  else if (off : ℚ) < -((ENCODER_MAX : ℚ) / 2) then off + ENCODER_MAX
  else off

/-- `TWO_PI = 2 * math.pi`. -/
noncomputable def TWO_PI : ℝ := 2 * Real.pi

/-- `encoder_to_radians` from `so101_visualize.py`, with the exact real
arithmetic standing in for Python floats:

```
adjusted_encoder = (encoder_value + JOINT_ENCODER_OFFSETS[motor_id]) % ENCODER_MAX
offset = adjusted_encoder - home_position
# wraparound (see wrap_offset)
radians = (offset / ENCODER_MAX) * TWO_PI
return radians * JOINT_MULTIPLIERS[motor_id]
```
-/
noncomputable def encoder_to_radians
    (encoder_value home_position : Int) (motor_id : Nat) : ℝ :=
  let adjusted := (encoder_value + JOINT_ENCODER_OFFSETS motor_id) % ENCODER_MAX
  let off := wrap_offset (adjusted - home_position)
  ((off : ℝ) / (ENCODER_MAX : ℝ)) * TWO_PI * JOINT_MULTIPLIERS motor_id

end Visualize

/-- C4: for every byte list `b` (the packet from the two header bytes
onward, without the checksum), `calculate_checksum` returns
`(~sum(b[2:])) & 0xFF`, a value in `[0, 256)`; and summing the bytes from
the id field through the checksum byte inclusive, masked to 8 bits,
yields `0xFF`. -/
theorem checksum_complement_and_roundtrip :
    ∀ b : List Int,
      FeetechInterface.calculate_checksum b = pyAnd255 (pyNot ((b.drop 2).sum)) ∧
      0 ≤ FeetechInterface.calculate_checksum b ∧
      FeetechInterface.calculate_checksum b < 256 ∧
      ((b.drop 2).sum + FeetechInterface.calculate_checksum b) % 256 = 255 := by
  intro b
  unfold FeetechInterface.calculate_checksum pyAnd255 pyNot
  refine ⟨rfl, ?_, ?_, ?_⟩ <;> omega

/-- C10: the three inline copies of `calculate_checksum` (in
`feetech_interface.py`, `so101_trajectory_test.py` and
`so101_visualize.py`) agree on every packet with at least two bytes, and
all return `(~sum(p[2:])) & 0xFF`. -/
theorem checksum_copies_agree :
    ∀ p : List Int, 2 ≤ p.length →
      FeetechInterface.calculate_checksum p = TrajectoryTest.calculate_checksum p ∧
      TrajectoryTest.calculate_checksum p = Visualize.calculate_checksum p ∧
      FeetechInterface.calculate_checksum p = pyAnd255 (pyNot ((p.drop 2).sum)) :=
  fun _ _ => ⟨rfl, rfl, rfl⟩

/-- Witness for `checksum_copies_agree` at the read-position request
packet for motor 1. -/
theorem checksum_copies_agree_witness :
    2 ≤ ([255, 255, 1, 4, 2, 56, 2] : List Int).length ∧
    (FeetechInterface.calculate_checksum [255, 255, 1, 4, 2, 56, 2] =
        TrajectoryTest.calculate_checksum [255, 255, 1, 4, 2, 56, 2] ∧
      TrajectoryTest.calculate_checksum [255, 255, 1, 4, 2, 56, 2] =
        Visualize.calculate_checksum [255, 255, 1, 4, 2, 56, 2] ∧
      FeetechInterface.calculate_checksum [255, 255, 1, 4, 2, 56, 2] =
        pyAnd255 (pyNot (([255, 255, 1, 4, 2, 56, 2] : List Int).drop 2).sum)) :=
  ⟨by decide, checksum_copies_agree _ (by decide)⟩

/-- C6: `set_motor_position` clamps every integer input to `[0, 4095]`
before building the packet: bytes 6 and 7 of the transmitted packet are
the little-endian encoding of `max 0 (min 4095 position)`, so the
transmitted value (`low + 256 * high`) equals the clamped input; in
particular input 5000 is transmitted as 4095 (`ff 0f`) and input -10
as 0 (`00 00`). -/
theorem set_position_clamps :
    (∀ motor_id position : Int,
      (set_motor_position_packet motor_id position).get? 6 =
        some (pyAnd255 (max 0 (min 4095 position))) ∧
      (set_motor_position_packet motor_id position).get? 7 =
        some (pyAnd255 (pyShr8 (max 0 (min 4095 position)))) ∧
      pyAnd255 (max 0 (min 4095 position)) +
          256 * pyAnd255 (pyShr8 (max 0 (min 4095 position))) =
        max 0 (min 4095 position)) ∧
    (set_motor_position_packet 1 5000).get? 6 = some 255 ∧
    (set_motor_position_packet 1 5000).get? 7 = some 15 ∧
    (set_motor_position_packet 1 (-10)).get? 6 = some 0 ∧
    (set_motor_position_packet 1 (-10)).get? 7 = some 0 := by
  refine ⟨?_, by decide, by decide, by decide, by decide⟩
  intro motor_id position
  refine ⟨rfl, rfl, ?_⟩
  unfold pyAnd255 pyShr8
  omega

/-- C8: both `set_motor_position` implementations report success whenever
the channel write does not raise, for every device-response buffer
content: the `feetech_interface.py` version returns `True` (draining the
buffer), and the `so101_motor_control.py` version returns `True` as well;
neither inspects the response bytes. -/
theorem write_reports_success :
    ∀ (s : Serial) (motor_id position : Int), s.writeFails = false →
      set_motor_position_fi s motor_id position =
        Except.ok (true, { writeFails := false, inBuffer := [] }) ∧
      (set_motor_position_mc s motor_id position).1 = true := by
  intro s motor_id position h
  obtain ⟨wf, buf⟩ := s
  simp only at h
  subst h
  cases buf <;>
    simp [set_motor_position_fi, set_motor_position_mc, serWrite,
      serInWaiting, serReadAll, Bind.bind, Except.bind, Pure.pure,
      Except.pure]

/-- Witness for `write_reports_success` on a healthy channel with a
three-byte acknowledgment queued. -/
theorem write_reports_success_witness :
    (Serial.mk false [1, 2, 3]).writeFails = false ∧
    (set_motor_position_fi (Serial.mk false [1, 2, 3]) 1 1000 =
        Except.ok (true, { writeFails := false, inBuffer := [] }) ∧
      (set_motor_position_mc (Serial.mk false [1, 2, 3]) 1 1000).1 = true) :=
  ⟨rfl, write_reports_success (Serial.mk false [1, 2, 3]) 1 1000 rfl⟩

/-- C5: in the convergence scenario with home 2048, target 2148, step 20
and each tick's read returning the previously commanded position, the
commanded positions are exactly 2068, 2088, 2108, 2128, 2148 (the last a
direct snap to target since the error 20 is within the step), converging
on the fifth tick; and in general a tick commands `current + STEP_SIZE`
when the error exceeds `STEP_SIZE`, `current - STEP_SIZE` when it is
below `-STEP_SIZE`, and exactly `target` when `|error| ≤ STEP_SIZE`. -/
theorem convergence_scenario :
    ((List.range 5).map fun n => traj_position (n + 1)) =
      [2068, 2088, 2108, 2128, 2148] ∧
    ((List.range 5).map fun n => (motor_tick_update (traj_position n) 2148).2) =
      [false, false, false, false, true] ∧
    ∀ current target : Int,
      (target - current > STEP_SIZE →
        motor_tick_update current target = (current + STEP_SIZE, false)) ∧
      (target - current < -STEP_SIZE →
        motor_tick_update current target = (current - STEP_SIZE, false)) ∧
      (|target - current| ≤ STEP_SIZE →
        motor_tick_update current target = (target, true)) := by
  refine ⟨by decide, by decide, ?_⟩
  intro current target
  simp only [motor_tick_update, STEP_SIZE]
  refine ⟨?_, ?_, ?_⟩ <;> intro h
  · rw [if_neg (by rw [abs_le]; omega), if_pos (by omega)]
  · rw [if_neg (by rw [abs_le]; omega), if_neg (by omega)]
  · rw [if_pos h]

/-- Witness for `convergence_scenario` at the scenario's first tick, a
downhill tick, and the snapping tick. -/
theorem convergence_scenario_witness :
    ((2148 : Int) - 2048 > STEP_SIZE ∧
      motor_tick_update 2048 2148 = (2048 + STEP_SIZE, false)) ∧
    ((2048 : Int) - 2148 < -STEP_SIZE ∧
      motor_tick_update 2148 2048 = (2148 - STEP_SIZE, false)) ∧
    (|(2148 : Int) - 2128| ≤ STEP_SIZE ∧
      motor_tick_update 2128 2148 = (2148, true)) :=
  ⟨⟨by decide, (convergence_scenario.2.2 2048 2148).1 (by decide)⟩,
   ⟨by decide, (convergence_scenario.2.2 2148 2048).2.1 (by decide)⟩,
   ⟨by decide, (convergence_scenario.2.2 2128 2148).2.2 (by decide)⟩⟩

/-- C1: evaluation of the waypoint loop at a tick in which motor 3's read
is absent while the five other motors are at target: the loop still ends
the tick with `all_reached = True` (the `continue` on an absent read
leaves the flag untouched), so the waypoint is concluded despite a motor
having no data this tick. -/
theorem absent_read_still_marks_reached :
    ([(some 2148, 2148), (some 2148, 2148), (none, 2148), (some 2148, 2148),
        (some 2148, 2148), (some 2148, 2148)] :
          List (Option Int × Int)).get? 2 = some (none, 2148) ∧
    tick_all_reached [(some 2148, 2148), (some 2148, 2148), (none, 2148),
      (some 2148, 2148), (some 2148, 2148), (some 2148, 2148)] = true := by
  exact ⟨rfl, by decide⟩

/-- Little-endian recombination: for a low byte below 256,
`lo ||| (hi <<< 8)` (the decode expression of `read_motor_register`)
equals `lo + 256 * hi`. -/
theorem byte_lor_shift (lo hi : Nat) (h : lo < 256) :
    lo ||| (hi <<< 8) = lo + 256 * hi := by
  apply Nat.eq_of_testBit_eq
  intro i
  rw [Nat.testBit_lor, Nat.testBit_shiftLeft]
  by_cases h8 : 8 ≤ i
  · have hlow : lo.testBit i = false :=
      Nat.testBit_lt_two_pow
        (lt_of_lt_of_le h (by
          calc (256 : ℕ) = 2 ^ 8 := by norm_num
          _ ≤ 2 ^ i := Nat.pow_le_pow_right (by norm_num) h8))
    have hdiv : (lo + 256 * hi) >>> 8 = hi := by
      rw [Nat.shiftRight_eq_div_pow]
      norm_num
      omega
    have hbit : (lo + 256 * hi).testBit i =
        ((lo + 256 * hi) >>> 8).testBit (i - 8) := by
      rw [Nat.testBit_shiftRight]
      congr 1
      omega
    rw [hbit, hdiv, hlow]
    simp [h8]
  · have hmod : (lo + 256 * hi) % 2 ^ 8 = lo := by
      norm_num
      omega
    have hbit : (lo + 256 * hi).testBit i =
        ((lo + 256 * hi) % 2 ^ 8).testBit i := by
      rw [Nat.testBit_mod_two_pow, decide_eq_true (by omega : i < 8)]
      simp
    rw [hbit, hmod]
    simp [h8]

/-- C7: a response that does not start with the two header bytes, or is
shorter than `5 + num_bytes`, makes `read_motor_register` return `None`:
no exception is raised and no value is decoded. -/
theorem malformed_response_absent :
    ∀ (r : List Nat) (num_bytes : Nat),
      r.take 2 ≠ [255, 255] ∨ r.length < 5 + num_bytes →
      read_decode r num_bytes = Except.ok none := by
  intro r n h
  rcases h with h | h
  · by_cases hlen : 5 + n ≤ r.length
    · rcases r with _ | ⟨b0, r⟩
      · simp only [List.length_nil] at hlen; omega
      rcases r with _ | ⟨b1, r⟩
      · simp only [List.length_cons, List.length_nil] at hlen; omega
      have hne : ¬(b0 = 255 ∧ b1 = 255) := by
        rintro ⟨rfl, rfl⟩
        exact h rfl
      simp [read_decode, hlen, pyIndex, hne, Bind.bind, Except.bind,
        Pure.pure, Except.pure]
    · simp [read_decode, hlen, Pure.pure, Except.pure]
  · have hlen : ¬ 5 + n ≤ r.length := by omega
    simp [read_decode, hlen, Pure.pure, Except.pure]

/-- Witness for `malformed_response_absent` on a two-byte response with a
wrong first header byte. -/
theorem malformed_response_absent_witness :
    (([0, 255] : List Nat).take 2 ≠ [255, 255] ∨
      ([0, 255] : List Nat).length < 5 + 2) ∧
    read_decode [0, 255] 2 = Except.ok none :=
  ⟨Or.inl (by decide), malformed_response_absent [0, 255] 2 (Or.inl (by decide))⟩

/-- C2 (amended): whenever `read_motor_register` returns a decoded value,
the response passed the framing check (starts with `0xFF, 0xFF` and has
at least `5 + num_bytes` bytes); the checksum byte is never inspected. -/
theorem decoded_implies_framing :
    ∀ (r : List Nat) (num_bytes v : Nat),
      read_decode r num_bytes = Except.ok (some v) →
      r.take 2 = [255, 255] ∧ 5 + num_bytes ≤ r.length := by
  intro r n v h
  by_cases hlen : 5 + n ≤ r.length
  · refine ⟨?_, hlen⟩
    rcases r with _ | ⟨b0, r⟩
    · simp only [List.length_nil] at hlen; omega
    rcases r with _ | ⟨b1, r⟩
    · simp only [List.length_cons, List.length_nil] at hlen; omega
    by_cases hb : b0 = 255 ∧ b1 = 255
    · obtain ⟨rfl, rfl⟩ := hb
      rfl
    · exfalso
      simp [read_decode, hlen, pyIndex, hb, Bind.bind, Except.bind,
        Pure.pure, Except.pure] at h
  · exfalso
    simp [read_decode, hlen, Pure.pure, Except.pure] at h

/-- Witness for `decoded_implies_framing` on a well-formed position
response decoding to 7. -/
theorem decoded_implies_framing_witness :
    read_decode [255, 255, 1, 4, 0, 7, 0, 0] 2 = Except.ok (some 7) ∧
    ([255, 255, 1, 4, 0, 7, 0, 0] : List Nat).take 2 = [255, 255] ∧
    5 + 2 ≤ ([255, 255, 1, 4, 0, 7, 0, 0] : List Nat).length :=
  ⟨rfl, decoded_implies_framing [255, 255, 1, 4, 0, 7, 0, 0] 2 7 rfl⟩

/-- C2 (counterexample): the response `ff ff 01 04 00 10 00 00` passes
the framing check and decodes to 16, yet its final checksum byte `00`
differs from the protocol checksum 234 = `(~sum of id through last data
byte) & 0xFF` of its preceding bytes: `read_motor_register` accepts
responses with an invalid checksum. -/
theorem invalid_checksum_still_decoded :
    read_decode [255, 255, 1, 4, 0, 16, 0, 0] 2 = Except.ok (some 16) ∧
    ([255, 255, 1, 4, 0, 16, 0, 0] : List Nat).getLast? = some 0 ∧
    FeetechInterface.calculate_checksum [255, 255, 1, 4, 0, 16, 0] = 234 ∧
    (0 : Int) ≠ 234 :=
  ⟨rfl, rfl, by decide, by decide⟩

/-- C9: the decoder applies no range check: a framing-valid response can
decode to 65535, which exceeds `ENCODER_MAX = 4095`; indeed for every
value up to 65535 there is an all-bytes response that `read_motor_register`
accepts and decodes to exactly that value. -/
theorem decoded_value_unbounded :
    (∃ r : List Nat, (∀ b ∈ r, b < 256) ∧
      read_decode r 2 = Except.ok (some 65535) ∧
      FeetechInterface.ENCODER_MAX < 65535) ∧
    ∀ v : Nat, v ≤ 65535 →
      ∃ r : List Nat, (∀ b ∈ r, b < 256) ∧
        read_decode r 2 = Except.ok (some v) := by
  constructor
  · exact ⟨[255, 255, 1, 4, 0, 255, 255, 0], by decide, rfl, by decide⟩
  · intro v hv
    refine ⟨[255, 255, 1, 4, 0, v % 256, v / 256, 0], ?_, ?_⟩
    · intro b hb
      simp only [List.mem_cons, List.not_mem_nil, or_false] at hb
      have h1 : v % 256 < 256 := Nat.mod_lt _ (by norm_num)
      have h2 : v / 256 < 256 := by omega
      rcases hb with rfl | rfl | rfl | rfl | rfl | rfl | rfl | rfl <;> omega
    · have hstep : read_decode [255, 255, 1, 4, 0, v % 256, v / 256, 0] 2 =
          Except.ok (some ((v % 256) ||| ((v / 256) <<< 8))) := rfl
      rw [hstep, byte_lor_shift _ _ (Nat.mod_lt _ (by norm_num))]
      congr 2
      omega

/-- Witness for `decoded_value_unbounded` at the value 5000. -/
theorem decoded_value_unbounded_witness :
    (5000 : ℕ) ≤ 65535 ∧
    ∃ r : List Nat, (∀ b ∈ r, b < 256) ∧
      read_decode r 2 = Except.ok (some 5000) :=
  ⟨by decide, decoded_value_unbounded.2 5000 (by decide)⟩

/-- Integer bounds for the single wraparound step: on inputs reachable
from `adjusted - home` with `home` in `[0, 4095]`, the wrapped offset
lies in `[-2047, 2047]`. -/
theorem wrap_offset_bounds (x : Int) (h0 : -4095 ≤ x) (h1 : x ≤ 4094) :
    -2047 ≤ Visualize.wrap_offset x ∧ Visualize.wrap_offset x ≤ 2047 := by
  unfold Visualize.wrap_offset Visualize.ENCODER_MAX
  split_ifs with hA hB
  · have hA' : (4095 : Int) < 2 * x := by
      exact_mod_cast (by push_cast; linarith : ((4095 : Int) : ℚ) < ((2 * x : Int) : ℚ))
    omega
  · have hB' : 2 * x < -4095 := by
      exact_mod_cast (by push_cast; linarith : ((2 * x : Int) : ℚ) < ((-4095 : Int) : ℚ))
    omega
  · have hA' : 2 * x ≤ 4095 := by
      exact_mod_cast (by push_cast; linarith : ((2 * x : Int) : ℚ) ≤ ((4095 : Int) : ℚ))
    have hB' : -4095 ≤ 2 * x := by
      exact_mod_cast (by push_cast; linarith : ((-4095 : Int) : ℚ) ≤ ((2 * x : Int) : ℚ))
    omega

/-- C3 (counterexample): `encoder_to_radians` is not 4096-periodic: with
home 2048 (and the configured zero offset and unit multiplier for motor
1), the encoder values 0 and 4096 produce different angles, because the
code wraps with `% ENCODER_MAX` where `ENCODER_MAX = 4095`. -/
theorem encoder_period_4096_fails :
    Visualize.encoder_to_radians 0 2048 1 ≠ Visualize.encoder_to_radians 4096 2048 1 := by
  have hA : Visualize.wrap_offset (0 - 2048) = 2047 := by
    unfold Visualize.wrap_offset Visualize.ENCODER_MAX
    norm_num
  have hB : Visualize.wrap_offset (1 - 2048) = -2047 := by
    unfold Visualize.wrap_offset Visualize.ENCODER_MAX
    norm_num
  have hm0 : ((0 : Int) + 0) % (4095 : Int) = 0 := by decide
  have hm1 : ((4096 : Int) + 0) % (4095 : Int) = 1 := by decide
  simp only [Visualize.encoder_to_radians, Visualize.JOINT_ENCODER_OFFSETS,
    Visualize.ENCODER_MAX, Visualize.JOINT_MULTIPLIERS, Visualize.TWO_PI,
    hm0, hm1, hA, hB, mul_one]
  intro heq
  have hπ := Real.pi_pos
  push_cast at heq
  rw [div_mul_eq_mul_div, div_mul_eq_mul_div] at heq
  have heq2 : (2047 : ℝ) * (2 * Real.pi) = -2047 * (2 * Real.pi) := by
    field_simp at heq
    linarith [heq]
  linarith [heq2, hπ]

/-- C3 (amended): `encoder_to_radians` is periodic with period 4095 (the
modulus the code actually applies), and for every home position in
`[0, 4095]` its output lies in `(-π, π]` scaled by the (unit) per-joint
multiplier. -/
theorem encoder_period_4095_and_range :
    ∀ (e home : Int) (motor_id : Nat),
      Visualize.encoder_to_radians e home motor_id =
        Visualize.encoder_to_radians (e + 4095) home motor_id ∧
      (0 ≤ home → home ≤ 4095 →
        -Real.pi < Visualize.encoder_to_radians e home motor_id ∧
        Visualize.encoder_to_radians e home motor_id ≤ Real.pi) := by
  intro e home motor_id
  constructor
  · have hmod : (e + Visualize.JOINT_ENCODER_OFFSETS motor_id) % Visualize.ENCODER_MAX =
        (e + 4095 + Visualize.JOINT_ENCODER_OFFSETS motor_id) % Visualize.ENCODER_MAX := by
      simp only [Visualize.JOINT_ENCODER_OFFSETS, Visualize.ENCODER_MAX]
      omega
    simp only [Visualize.encoder_to_radians, hmod]
  · intro hh0 hh1
    simp only [Visualize.encoder_to_radians, Visualize.JOINT_MULTIPLIERS,
      Visualize.TWO_PI, mul_one]
    set a := (e + Visualize.JOINT_ENCODER_OFFSETS motor_id) % Visualize.ENCODER_MAX with ha
    have ha0 : 0 ≤ a := Int.emod_nonneg _ (by simp [Visualize.ENCODER_MAX])
    have ha1 : a < 4095 := by
      have h := Int.emod_lt_of_pos (e + Visualize.JOINT_ENCODER_OFFSETS motor_id)
        (by simp [Visualize.ENCODER_MAX] : (0 : Int) < Visualize.ENCODER_MAX)
      rw [← ha] at h
      simpa [Visualize.ENCODER_MAX] using h
    obtain ⟨hw0, hw1⟩ := wrap_offset_bounds (a - home) (by omega) (by omega)
    set w := Visualize.wrap_offset (a - home) with hwdef
    have hwr0 : (-2047 : ℝ) ≤ (w : ℝ) := by exact_mod_cast hw0
    have hwr1 : ((w : ℝ)) ≤ 2047 := by exact_mod_cast hw1
    have hπ := Real.pi_pos
    have hden : ((Visualize.ENCODER_MAX : Int) : ℝ) = 4095 := by
      norm_num [Visualize.ENCODER_MAX]
    rw [hden, div_mul_eq_mul_div]
    have hup : (w : ℝ) * (2 * Real.pi) ≤ 2047 * (2 * Real.pi) :=
      mul_le_mul_of_nonneg_right hwr1 (by positivity)
    have hlo : (-2047 : ℝ) * (2 * Real.pi) ≤ (w : ℝ) * (2 * Real.pi) :=
      mul_le_mul_of_nonneg_right hwr0 (by positivity)
    constructor
    · linarith [hlo, hπ]
    · linarith [hup, hπ]

/-- Witness for `encoder_period_4095_and_range` at encoder value 5, home
2048, motor 1. -/
theorem encoder_period_4095_and_range_witness :
    Visualize.encoder_to_radians 5 2048 1 =
      Visualize.encoder_to_radians (5 + 4095) 2048 1 ∧
    (-Real.pi < Visualize.encoder_to_radians 5 2048 1 ∧
      Visualize.encoder_to_radians 5 2048 1 ≤ Real.pi) :=
  ⟨(encoder_period_4095_and_range 5 2048 1).1,
   (encoder_period_4095_and_range 5 2048 1).2 (by norm_num) (by norm_num)⟩
